import Mathlib

set_option maxHeartbeats 1000000

/-!
Shallow embedding of the multi-source bibliographic record-matching and
enrichment engine in src/indices.ts of the Zotero "Add Items from Text"
plugin, together with proofs of the specification claims about it.

Modeling conventions, used throughout:

* JavaScript strings are Lean Strings (concrete operations are re-implemented
  over the character list, since the JS string methods used by the source are
  simple and total).  JS number arithmetic on match scores is modeled as exact
  rational arithmetic over ℚ.
* Effectful calls are modeled as explicit inputs.  An adapter receives the
  outcome of its one outbound HTTP request as an Except value, where
  Except.error models an exception thrown by the host request layer (caught by
  the adapter's catch-all), and host-provided utilities (the DOM parser,
  Zotero.Utilities.cleanISBN) are passed as function parameters.
* JSON response bodies are an inductive JsonVal tree.  Optional chaining is
  total field access returning JsonVal.null for anything missing; both JS null
  and undefined are modeled by JsonVal.null.  A provider value of unexpected
  non-string type sitting in a position the source consumes as a string is
  modeled as absent/empty: in the JS runtime such a value would either be
  stringified or raise a TypeError inside the adapter's try block (so either
  way no exception escapes the adapter; the claims proved here do not depend
  on that corner).
-/

/-! ### JS string primitives, re-implemented over List Char so that all
concrete evaluations reduce. -/

def jsTrim (s : String) : String :=
  String.mk ((s.data.dropWhile Char.isWhitespace).reverse.dropWhile Char.isWhitespace).reverse

def jsToLower (s : String) : String :=
  String.mk (s.data.map Char.toLower)

def startsWithL : List Char → List Char → Bool
  | _, [] => true
  | [], _ :: _ => false
  | c :: cs, p :: ps => c = p && startsWithL cs ps

def jsStartsWith (s pre : String) : Bool :=
  startsWithL s.data pre.data

def jsDrop (s : String) (n : Nat) : String :=
  String.mk (s.data.drop n)

/-- JS a || b for strings: the first operand unless it is falsy (empty). -/
def jsOrS (a b : String) : String :=
  if a = "" then b else a

/-- JS String.prototype.split with a one-character separator. -/
def splitOnChar (sep : Char) (s : String) : List String :=
  (splitRuns s.data []).map String.mk
where
  splitRuns : List Char → List Char → List (List Char)
    | [], acc => [acc.reverse]
    | c :: rest, acc =>
      if c = sep then acc.reverse :: splitRuns rest []
      else splitRuns rest (c :: acc)

/-! ### Text normalizer (normalizeText, indices.ts:29) -/

/-- One step of JS String.prototype.normalize("NFD"), modeled pointwise.  The
Unicode decomposition table lives in the host; on the ASCII range (which all
concrete inputs below use, and on which every proof that quantifies over
arbitrary strings does not depend) NFD is the identity, and that is how the
decomposition is modeled.  Combining marks are stripped afterwards by the
U+0300..U+036F filter exactly as in the source. -/
def nfdDecompose (c : Char) : List Char := [c]

def isCombiningMark (c : Char) : Bool :=
  decide (0x300 ≤ c.toNat) && decide (c.toNat ≤ 0x36f)

/-- The characters removed by the source's quote-stripping step: apostrophe,
right single quotation mark (U+2019), backtick, double quote. -/
def isQuoteLikeChar (c : Char) : Bool :=
  c = Char.ofNat 0x27 || c = Char.ofNat 0x2019 || c = Char.ofNat 0x60 || c = Char.ofNat 0x22

def isLowerAlnum (c : Char) : Bool :=
  (decide ('a' ≤ c) && decide (c ≤ 'z')) || (decide ('0' ≤ c) && decide (c ≤ '9'))

/-- Maximal runs of lowercase-alphanumeric characters (the token list left by
collapsing every non-alphanumeric run to a space). -/
def tokenRuns : List Char → List Char → List (List Char)
  | [], acc => if acc = [] then [] else [acc.reverse]
  | c :: rest, acc =>
    if isLowerAlnum c then tokenRuns rest (c :: acc)
    else if acc = [] then tokenRuns rest []
    else acc.reverse :: tokenRuns rest []

/-- Embeds normalizeText (indices.ts:29): NFD-decompose and strip combining
marks, lowercase, strip quote variants, collapse every non-alphanumeric run to
a single space, remove the whole-word stopwords "and"/"the", collapse
whitespace, trim.  The last four regex steps are realized by tokenizing on
non-alphanumeric runs, dropping stopword tokens, and re-joining with single
spaces, which produces the same string: after the collapse step the string is
a space-separated list of alphanumeric tokens, and the word-boundary regex
\b(and|the)\b matches exactly the whole tokens "and" and "the". -/
def normalizeText (value : String) : String :=
  let decomposed := (value.data.map nfdDecompose).flatten
  let stripped := decomposed.filter (fun c => !isCombiningMark c)
  let lowered := stripped.map Char.toLower
  let noQuotes := lowered.filter (fun c => !isQuoteLikeChar c)
  let toks := tokenRuns noQuotes []
  let kept := toks.filter (fun t => !(t == ['a', 'n', 'd']) && !(t == ['t', 'h', 'e']))
  String.intercalate " " (kept.map String.mk)

/-! ### Similarity scorer (diceCoefficient, indices.ts:50) -/

/-- The internal-whitespace strip .replace(/\s/g, "") applied to a normalized
string, as a character list. -/
def stripSpacesNorm (s : String) : List Char :=
  s.data.filter (fun c => !c.isWhitespace)

/-- Adjacent character pairs (the bigrams of the source's counting loops). -/
def bigrams : List Char → List (Char × Char)
  | a :: b :: rest => (a, b) :: bigrams (b :: rest)
  | _ => []

/-- The source's second loop: walk the second string's bigrams in order and
greedily consume one matching occurrence from the first string's bigram
multiset (count map) per hit.  A decrement of a positive count is modeled by
erasing one occurrence from the remaining list. -/
def intersectCount : List (Char × Char) → List (Char × Char) → Nat
  | _, [] => 0
  | avail, bg :: rest =>
    if bg ∈ avail then intersectCount (avail.erase bg) rest + 1
    else intersectCount avail rest

/-- Embeds diceCoefficient (indices.ts:50). -/
def diceCoefficient (a b : String) : ℚ :=
  let s1 := stripSpacesNorm (normalizeText a)
  let s2 := stripSpacesNorm (normalizeText b)
  if s1 = [] ∨ s2 = [] then 0
  else if s1 = s2 then 1
  else if s1.length < 2 ∨ s2.length < 2 then 0
  else (2 * (intersectCount (bigrams s1) (bigrams s2) : ℚ)) /
    (((s1.length - 1 : ℕ) : ℚ) + ((s2.length - 1 : ℕ) : ℚ))

/-! ### DOI normalization (normalizeDOI, indices.ts:76) -/

/-- Embeds normalizeDOI (indices.ts:76).  none models an undefined raw value;
the empty string is falsy in JS and also returns "" immediately.  The host
canonicalizer Zotero.Utilities.cleanDOI is guarded by optional chaining and a
try/catch in the source and is modeled as unavailable (the fall-through
branch), so the result is the prefix-stripped, trimmed DOI. -/
def normalizeDOI (raw : Option String) : String :=
  match raw with
  | none => ""
  | some r =>
    if r = "" then ""
    else
      let doi0 := jsTrim r
      let doi1 :=
        if jsStartsWith (jsToLower doi0) "https://doi.org/" then jsDrop doi0 16
        else if jsStartsWith (jsToLower doi0) "http://doi.org/" then jsDrop doi0 15
        else doi0
      let doi2 := if jsStartsWith (jsToLower doi1) "doi:" then jsDrop doi1 4 else doi1
      jsTrim doi2

/-! ### Data model: ExtractedReference (llm/types.ts), as a total map from the
fixed field enumeration to a field value.  The source's applyPatch reads and
writes fields by dynamic key over this exact field set, so the record is
modeled as a function from the field enumeration. -/

structure Author where
  firstName : String
  lastName : String
deriving DecidableEq, Repr

inductive FieldKey
  | itemType
  | title
  | authors
  | date
  | year
  | publicationTitle
  | journalAbbreviation
  | volume
  | issue
  | pages
  | DOI
  | ISBN
  | ISSN
  | url
  | publisher
  | place
  | edition
  | abstractNote
  | language
  | bookTitle
  | conferenceName
  | proceedingsTitle
  | university
  | thesisType
  | series
  | seriesNumber
  | numberOfVolumes
  | numPages
deriving DecidableEq, Repr

/-- A field's value: absent (JS undefined or null), a string, or the author
list (the one non-string field the engine traffics in). -/
inductive FieldVal
  | absent
  | str (s : String)
  | authorsVal (l : List Author)
deriving DecidableEq, Repr

abbrev Ref := FieldKey → FieldVal

/-- A patch is a partial record: the ordered key/value entries of the JS
object, as iterated by Object.entries in applyPatch. -/
abbrev Patch := List (FieldKey × FieldVal)

def fvStr? : FieldVal → Option String
  | .str s => some s
  | _ => none

/-- ref.title (a required string field in the source type; an absent value
reads as "" exactly where the source writes ref.title || ""). -/
def refTitle (r : Ref) : String :=
  (fvStr? (r FieldKey.title)).getD ""

def refDOI (r : Ref) : Option String := fvStr? (r FieldKey.DOI)

def refYear (r : Ref) : Option String := fvStr? (r FieldKey.year)

def refDate (r : Ref) : Option String := fvStr? (r FieldKey.date)

def refAuthors (r : Ref) : Option (List Author) :=
  match r FieldKey.authors with
  | .authorsVal l => some l
  | _ => none

def refURL (r : Ref) : Option String := fvStr? (r FieldKey.url)

/-- Embeds firstAuthorLastName (indices.ts:99): ref.authors?.[0]?.lastName || "",
normalized. -/
def firstAuthorLastName (r : Ref) : String :=
  normalizeText (match refAuthors r with
    | some (a :: _) => a.lastName
    | _ => "")

def isWordChar (c : Char) : Bool := c.isAlphanum || c = '_'

/-- Leftmost match of the JS regex \b(\d{4})\b: scan left to right carrying the
previous character for the left word-boundary test. -/
def findYearToken : Option Char → List Char → Option String
  | prev, d1 :: d2 :: d3 :: d4 :: rest =>
    if d1.isDigit && d2.isDigit && d3.isDigit && d4.isDigit
        && (match prev with | some p => !isWordChar p | none => true)
        && (match rest with | c :: _ => !isWordChar c | [] => true)
    then some (String.mk [d1, d2, d3, d4])
    else findYearToken (some d1) (d2 :: d3 :: d4 :: rest)
  | _, _ => none

/-- Embeds extractYear (indices.ts:104). -/
def extractYear (r : Ref) : String :=
  let year := jsTrim ((refYear r).getD "")
  if !(year == "") && year.length == 4 && year.data.all Char.isDigit then year
  else ((findYearToken none ((refDate r).getD "").data).getD "")

/-! ### Candidate scoring (scoreCandidate, indices.ts:207) -/

structure Candidate where
  title : Option String := none
  doi : Option String := none
  year : Option String := none
  firstAuthorLastName : Option String := none
deriving DecidableEq, Repr

structure ScoreResult where
  score : ℚ
  doiMismatch : Bool
deriving DecidableEq, Repr

/-- The titleScore term of scoreCandidate: candidate.title ? dice(...) : 0. -/
def titleScore (r : Ref) (cand : Candidate) : ℚ :=
  match cand.title with
  | some t => if t ≠ "" then diceCoefficient (refTitle r) t else 0
  | none => 0

/-- The authorScore term of scoreCandidate (exact equality of normalized first
author surnames, guarded by both being present/truthy). -/
def authorScore (r : Ref) (cand : Candidate) : ℚ :=
  match cand.firstAuthorLastName with
  | some c =>
    if firstAuthorLastName r ≠ "" ∧ c ≠ "" then
      (if firstAuthorLastName r = normalizeText c then 1 else 0)
    else 0
  | none => 0

/-- The yearScore term of scoreCandidate. -/
def yearScore (r : Ref) (cand : Candidate) : ℚ :=
  match cand.year with
  | some y =>
    if extractYear r ≠ "" ∧ y ≠ "" then (if extractYear r = y then 1 else 0)
    else 0
  | none => 0

/-- Embeds scoreCandidate (indices.ts:207). -/
def scoreCandidate (r : Ref) (cand : Candidate) : ScoreResult :=
  let refDoi := normalizeDOI (refDOI r)
  let candDoi := normalizeDOI cand.doi
  if refDoi ≠ "" ∧ candDoi ≠ "" then
    (if refDoi = candDoi then ⟨1, false⟩ else ⟨0, true⟩)
  else
    ⟨(0.75 : ℚ) * titleScore r cand + 0.2 * authorScore r cand + 0.05 * yearScore r cand,
      false⟩

/-! ### Blank detection and patch application (isBlank, indices.ts:41 and
applyPatch, indices.ts:1013) -/

/-- Embeds the string case of isBlank (indices.ts:41). -/
def isBlankStr (s : String) : Bool :=
  jsTrim s == "" || jsToLower (jsTrim s) == "null"

/-- Embeds isBlank (indices.ts:41) on field values: null/undefined is blank, a
string is blank when trimmed-empty or the literal "null" in any case, any
other value is not blank. -/
def isBlankVal : FieldVal → Bool
  | .absent => true
  | .str s => isBlankStr s
  | .authorsVal _ => false

/-- The overwriteKeys set of applyPatch (indices.ts:1022). -/
def overwriteKeys : List FieldKey :=
  [FieldKey.title, FieldKey.authors, FieldKey.date, FieldKey.year, FieldKey.DOI, FieldKey.url,
    FieldKey.publicationTitle, FieldKey.journalAbbreviation, FieldKey.volume, FieldKey.issue,
    FieldKey.pages, FieldKey.ISSN, FieldKey.ISBN, FieldKey.publisher, FieldKey.place,
    FieldKey.edition, FieldKey.bookTitle, FieldKey.conferenceName, FieldKey.proceedingsTitle,
    FieldKey.university, FieldKey.thesisType, FieldKey.series, FieldKey.seriesNumber,
    FieldKey.numPages]

/-- One iteration of applyPatch's Object.entries loop (indices.ts:1049). -/
def applyPatchStep (forceOverwrite : Bool) (merged : Ref) (kv : FieldKey × FieldVal) : Ref :=
  if isBlankVal kv.2 then merged
  else if forceOverwrite ∧ kv.1 ∈ overwriteKeys then Function.update merged kv.1 kv.2
  else if isBlankVal (merged kv.1) then Function.update merged kv.1 kv.2
  else merged

/-- Embeds applyPatch (indices.ts:1013). -/
def applyPatch (ref : Ref) (patch : Patch) (enrichFromIndexes forceOverwrite : Bool) : Ref :=
  if enrichFromIndexes then patch.foldl (applyPatchStep forceOverwrite) ref else ref

/-! ### IndexMatch and best-match selection (indices.ts:20, 1089) -/

inductive IndexSource
  | crossref
  | openalex
  | lobid
  | loc
  | gbv
  | wikidata
deriving DecidableEq, Repr

inductive IndexStatus
  | validated
  | invalid
  | not_found
  | error
deriving DecidableEq, Repr

structure IndexMatch where
  source : IndexSource
  status : IndexStatus
  score : ℚ
  explanation : String
  url : Option String := none
  patch : Option Patch := none
deriving DecidableEq

/-- The rank function of the engine's sort comparator (indices.ts:1092). -/
def statusRank (m : IndexMatch) : Nat :=
  match m.status with
  | .validated => 0
  | .invalid => 1
  | .not_found => 2
  | .error => 3

/-- a strictly precedes b under the comparator (lower rank, or equal rank and
strictly higher score). -/
def betterMatch (a b : IndexMatch) : Bool :=
  decide (statusRank a < statusRank b) ||
    (statusRank a == statusRank b && decide (b.score < a.score))

def pickBetter (acc : Option IndexMatch) (m : IndexMatch) : Option IndexMatch :=
  match acc with
  | none => some m
  | some b => if betterMatch m b then some m else some b

/-- Embeds the best-match selection matches.slice().sort(cmp)[0]
(indices.ts:1089).  ECMAScript sort is stable and the comparator is consistent
with a total preorder, so the head of the sorted array is the earliest element
that no other element strictly precedes; the fold keeps the current element
unless a later one is strictly better, which computes exactly that element. -/
def selectBest (ms : List IndexMatch) : Option IndexMatch :=
  ms.foldl pickBetter none

/-! ### Validation reports (buildValidationFromMatch, mergeValidation,
indices.ts:112, 136) -/

structure ValidationResult where
  isValid : Bool
  errors : List String
  warnings : List String
  suggestions : List String
deriving DecidableEq, Repr

def sourceLabel : IndexSource → String
  | .openalex => "OpenAlex"
  | .crossref => "Crossref"
  | .lobid => "lobid"
  | .loc => "Library of Congress"
  | .gbv => "GBV/K10Plus"
  | .wikidata => "Wikidata"

/-- Embeds buildValidationFromMatch (indices.ts:112). -/
def buildValidationFromMatch (m : IndexMatch) : ValidationResult :=
  let message := sourceLabel m.source ++ ": " ++ m.explanation ++
    (match m.url with | some u => " (" ++ u ++ ")" | none => "")
  if m.status = .invalid then ⟨false, [message], [], []⟩
  else if m.status = .validated then ⟨true, [], [message], []⟩
  else ⟨true, [], [message], []⟩

/-- Embeds mergeValidation (indices.ts:136); none models an undefined base. -/
def mergeValidation (base : Option ValidationResult) (extra : ValidationResult) :
    ValidationResult :=
  match base with
  | none => extra
  | some b =>
    ⟨b.isValid && extra.isValid, b.errors ++ extra.errors,
      b.warnings ++ extra.warnings, b.suggestions ++ extra.suggestions⟩

/-! ### JSON values (response bodies) -/

inductive JsonVal
  | null
  | bool (b : Bool)
  | num (n : Int)
  | str (s : String)
  | arr (items : List JsonVal)
  | obj (entries : List (String × JsonVal))

/-- Optional-chaining property access j?.[k]: anything missing or non-object
yields null (modeling JS undefined). -/
def jvGet (j : JsonVal) (k : String) : JsonVal :=
  match j with
  | .obj kvs =>
    match kvs.find? (fun kv => kv.1 == k) with
    | some kv => kv.2
    | none => .null
  | _ => .null

/-- Optional-chaining index access j?.[i]. -/
def jvIdx (j : JsonVal) (i : Nat) : JsonVal :=
  match j with
  | .arr l => l.getD i .null
  | _ => .null

/-- JS truthiness of a JSON value. -/
def jvTruthy : JsonVal → Bool
  | .null => false
  | .bool b => b
  | .num n => !(n == 0)
  | .str s => !(s == "")
  | .arr _ => true
  | .obj _ => true

/-- A JSON value consumed as a string (see the modeling conventions above). -/
def jvStr? : JsonVal → Option String
  | .str s => some s
  | _ => none

def jvStrD (j : JsonVal) : String := (jvStr? j).getD ""

/-- JS a || b over JSON values. -/
def jvOr (a b : JsonVal) : JsonVal := if jvTruthy a then a else b

mutual
/-- JS ToString on a JSON value, as used by ?.toString() and template
literals: numbers in base 10, arrays joined by commas, objects as
"[object Object]".  null is only reached as an array element, where
Array.prototype.flatten renders it empty. -/
def jsToString : JsonVal → String
  | .null => ""
  | .bool b => if b then "true" else "false"
  | .num n => toString n
  | .str s => s
  | .arr l => String.intercalate "," (jsToStringList l)
  | .obj _ => "[object Object]"
def jsToStringList : List JsonVal → List String
  | [] => []
  | j :: js => jsToString j :: jsToStringList js
end

/-- A JSON value interpolated into a template literal; String(undefined) is
"undefined" (JsonVal.null models undefined here, see conventions). -/
def jsTemplateStr : JsonVal → String
  | .null => "undefined"
  | j => jsToString j

/-- x?.toString() || next : stringify unless the value is nullish, and fall
through on a falsy ("") result. -/
def jvToStringOr (j : JsonVal) (next : String) : String :=
  match j with
  | .null => next
  | j => jsOrS (jsToString j) next

/-! ### Resilient request helper (requestJsonWithRetry, indices.ts:154) -/

def transientStatuses : List Nat := [429, 500, 502, 503, 504]

/-- Trace of one requestJsonWithRetry run: the returned status/body plus the
observable effects, namely how many requests were issued and which backoff
sleeps were performed between them. -/
structure RetryTrace where
  status : Nat
  data : JsonVal
  attempts : Nat
  backoffs : List Nat

def retryGo (provider : Nat → Nat × JsonVal) (attempt : Nat) : Nat → RetryTrace
  | 0 =>
    let r := provider attempt
    ⟨r.1, r.2, attempt, []⟩
  | rem + 1 =>
    let r := provider attempt
    if r.1 ∈ transientStatuses then
      let backoffMs := min (2000 * 2 ^ (attempt - 1)) 15000
      let t := retryGo provider (attempt + 1) rem
      ⟨t.status, t.data, t.attempts, backoffMs :: t.backoffs⟩
    else ⟨r.1, r.2, attempt, []⟩

/-- Embeds requestJsonWithRetry (indices.ts:154).  provider n is the HTTP
outcome (status and JSON-normalized body) of the n-th issued request; the
loop's exit condition "status not transient, or attempt ≥ maxAttempts" is
realized by counting down the remaining allowed attempts maxAttempts - 1 from
the first attempt. -/
def requestJsonWithRetry (provider : Nat → Nat × JsonVal) (maxAttempts : Nat := 3) :
    RetryTrace :=
  retryGo provider 1 (maxAttempts - 1)

/-! ### Orchestrator (IndexValidationService.validateAndEnrich, indices.ts:1063) -/

structure IndexPreferences where
  enabled : Bool
  enrichFromIndexes : Bool
  crossref : Bool
  crossrefMailto : Option String := none
  openalex : Bool
  openalexMailto : Option String := none
  lobid : Bool
  loc : Bool
  gbv : Bool
  gbvSruUrl : Option String := none
  wikidata : Bool

/-- The engine's overwrite decision for the best match (indices.ts:1108):
enrichFromIndexes AND status validated AND score at least 0.95. -/
def forceOverwriteFor (prefs : IndexPreferences) (m : IndexMatch) : Bool :=
  prefs.enrichFromIndexes && decide (m.status = .validated) && decide ((0.95 : ℚ) ≤ m.score)

def allValidReport : ValidationResult := ⟨true, [], [], []⟩

/-- The per-reference body of the validateAndEnrich loop (indices.ts:1081):
given the list of IndexMatch results the enabled adapters produced for this
reference (their network outcomes are inputs, see the conventions), select the
best match, merge every match's report, and apply the winning patch under the
overwrite policy. -/
def processOne (prefs : IndexPreferences) (ref : Ref) (ms : List IndexMatch) :
    Ref × ValidationResult :=
  let best := selectBest ms
  let validation := ms.foldl
    (fun v m => mergeValidation (some v) (buildValidationFromMatch m)) allValidReport
  match best with
  | some b =>
    match b.patch with
    | some p => (applyPatch ref p prefs.enrichFromIndexes (forceOverwriteFor prefs b), validation)
    | none => (ref, validation)
  | none => (ref, validation)

def validateLoop (prefs : IndexPreferences) (oracle : Nat → Ref → List IndexMatch) :
    Nat → List Ref → List Ref × List ValidationResult
  | _, [] => ([], [])
  | i, r :: rest =>
    let hd := processOne prefs r (oracle i r)
    let tl := validateLoop prefs oracle (i + 1) rest
    (hd.1 :: tl.1, hd.2 :: tl.2)

/-- Embeds IndexValidationService.validateAndEnrich (indices.ts:1064).  oracle
i r is the list of IndexMatch results the prefs-enabled adapters produce for
the i-th reference r; each adapter call is an outbound lookup whose outcome is
an input here.  The onProgress callback is an effect with no bearing on the
returned value and is not modeled. -/
def validateAndEnrich (refs : List Ref) (prefs : IndexPreferences)
    (oracle : Nat → Ref → List IndexMatch) : List Ref × List ValidationResult :=
  if !prefs.enabled then (refs, refs.map (fun _ => allValidReport))
  else validateLoop prefs oracle 0 refs

/-! ### Crossref adapter (matchCrossref, indices.ts:238) -/

structure HttpResp where
  status : Nat
  data : JsonVal

/-- Array.isArray(x) ? x[0] : x. -/
def firstIfArray (j : JsonVal) : JsonVal :=
  match j with
  | .arr l => l.getD 0 .null
  | j => j

/-- A provider JSON value used as a patch field value (non-string values
modeled as absent, see the conventions). -/
def fvJson (j : JsonVal) : FieldVal :=
  match j with
  | .str s => .str s
  | _ => .absent

/-- JS value || refField for a patch entry, with a JSON left operand. -/
def jvOrFv (j : JsonVal) (fallback : FieldVal) : FieldVal :=
  if jvTruthy j then fvJson j else fallback

/-- JS str || refField for a patch entry, with a string left operand. -/
def strOrFv (s : String) (fallback : FieldVal) : FieldVal :=
  if s = "" then fallback else .str s

/-- JS Number.prototype.toFixed(2) on the exact rational score model
(nonnegative scores): round half up to two decimals. -/
def ratToFixed2 (q : ℚ) : String :=
  let n : ℤ := ⌊q * 100 + 1/2⌋
  toString (n / 100) ++ "." ++
    (if n % 100 < 10 then "0" ++ toString (n % 100) else toString (n % 100))

/-- item.published?.["date-parts"]?.[0]?.[0]?.toString() for key k. -/
def datePartsYear (item : JsonVal) (k : String) : String :=
  jvToStringOr (jvIdx (jvIdx (jvGet (jvGet item k) "date-parts") 0) 0) ""

def crossrefYear (item : JsonVal) : String :=
  jsOrS (datePartsYear item "published") (jsOrS (datePartsYear item "created") "")

/-- item.author?.[0]?.family || item.author?.[0]?.literal || "". -/
def crossrefFirstAuthor (item : JsonVal) : String :=
  jsOrS (jvStrD (jvGet (jvIdx (jvGet item "author") 0) "family"))
    (jsOrS (jvStrD (jvGet (jvIdx (jvGet item "author") 0) "literal")) "")

/-- The candidate scoring shared by both matchCrossref branches. -/
def crossrefScored (r : Ref) (item : JsonVal) : ScoreResult :=
  scoreCandidate r
    { title := jvStr? (firstIfArray (jvGet item "title")),
      doi := jvStr? (jvGet item "DOI"),
      year := some (crossrefYear item),
      firstAuthorLastName := some (crossrefFirstAuthor item) }

/-- Crossref author-list extraction for the patch (indices.ts:278). -/
def crossrefAuthors (item : JsonVal) : Option (List Author) :=
  match jvGet item "author" with
  | .arr l =>
    some ((l.map (fun a => Author.mk (jvStrD (jvGet a "given")) (jvStrD (jvGet a "family")))).filter
      (fun a => !(a.firstName == "") || !(a.lastName == "")))
  | _ => none

/-- The Crossref patch object (indices.ts:287 and 372), entries in source
order. -/
def crossrefPatch (r : Ref) (item : JsonVal) : Patch :=
  let title := firstIfArray (jvGet item "title")
  let candidateYear := crossrefYear item
  [(FieldKey.title, jvOrFv title (r FieldKey.title)),
    (FieldKey.DOI, strOrFv (normalizeDOI (jvStr? (jvGet item "DOI"))) (r FieldKey.DOI)),
    (FieldKey.url, jvOrFv (jvGet item "URL") (r FieldKey.url)),
    (FieldKey.authors,
      match crossrefAuthors item with
      | some l => if !(l == []) then FieldVal.authorsVal l else r FieldKey.authors
      | none => r FieldKey.authors),
    (FieldKey.publicationTitle, fvJson (firstIfArray (jvGet item "container-title"))),
    (FieldKey.journalAbbreviation, fvJson (firstIfArray (jvGet item "short-container-title"))),
    (FieldKey.volume, fvJson (jvGet item "volume")),
    (FieldKey.issue, fvJson (jvGet item "issue")),
    (FieldKey.pages, fvJson (jvGet item "page")),
    (FieldKey.ISSN, fvJson (firstIfArray (jvGet item "ISSN"))),
    (FieldKey.ISBN, fvJson (firstIfArray (jvGet item "ISBN"))),
    (FieldKey.publisher, fvJson (jvGet item "publisher")),
    (FieldKey.year, strOrFv candidateYear (r FieldKey.year)),
    (FieldKey.date, strOrFv candidateYear (r FieldKey.date))]

/-- The DOI-lookup branch of matchCrossref (indices.ts:243). -/
def crossrefDoiBranch (r : Ref) (resp : HttpResp) : IndexMatch :=
  if resp.status = 404 then
    { source := .crossref, status := .not_found, score := 0, explanation := "DOI not found" }
  else if resp.status ≠ 200 then
    { source := .crossref, status := .error, score := 0,
      explanation := "request failed (HTTP " ++ toString resp.status ++ ")" }
  else
    let item := jvOr (jvGet resp.data "message") (.obj [])
    let sc := crossrefScored r item
    if sc.doiMismatch then
      { source := .crossref, status := .invalid, score := 0,
        explanation :=
          "DOI resolves, but DOI mismatch (got " ++ jsTemplateStr (jvGet item "DOI") ++ ")",
        url := jvStr? (jvGet item "URL") }
    else if (0.8 : ℚ) ≤ sc.score then
      { source := .crossref, status := .validated, score := sc.score,
        explanation := "matched (score " ++ ratToFixed2 sc.score ++ ")",
        url := jvStr? (jvGet item "URL"), patch := some (crossrefPatch r item) }
    else
      { source := .crossref, status := .invalid, score := sc.score,
        explanation := "DOI resolves, but title/author mismatch (score " ++ ratToFixed2 sc.score ++ ")",
        url := jvStr? (jvGet item "URL") }

/-- The candidate loop of the search branch: keep the first strictly-greater
score (indices.ts:339). -/
def crossrefBestOf (r : Ref) (items : List JsonVal) : Option (JsonVal × ℚ) :=
  items.foldl (fun best item =>
    let s := (crossrefScored r item).score
    match best with
    | none => some (item, s)
    | some b => if b.2 < s then some (item, s) else some b) none

/-- The bibliographic-search branch of matchCrossref (indices.ts:324).  A
non-array message.items is modeled as the empty candidate list (in JS it would
reach the same not-found result through the .length check). -/
def crossrefSearchBranch (r : Ref) (resp : HttpResp) : IndexMatch :=
  if resp.status ≠ 200 then
    { source := .crossref, status := .error, score := 0,
      explanation := "search failed (HTTP " ++ toString resp.status ++ ")" }
  else
    let items := match jvGet (jvGet resp.data "message") "items" with
      | .arr l => l
      | _ => []
    if items.isEmpty then
      { source := .crossref, status := .not_found, score := 0, explanation := "no results" }
    else
      match crossrefBestOf r items with
      | none =>
        { source := .crossref, status := .not_found, score := 0, explanation := "no usable results" }
      | some best =>
        if (0.8 : ℚ) ≤ best.2 then
          { source := .crossref, status := .validated, score := best.2,
            explanation := "matched (score " ++ ratToFixed2 best.2 ++ ")",
            url := jvStr? (jvGet best.1 "URL"), patch := some (crossrefPatch r best.1) }
        else
          { source := .crossref, status := .not_found, score := best.2,
            explanation := "best score too low (" ++ ratToFixed2 best.2 ++ ")" }

/-- Embeds matchCrossref (indices.ts:238).  env is the outcome of the one
outbound request the call performs (the DOI lookup or the bibliographic
search, whichever branch runs); Except.error e models a request-layer
exception whose String(e) rendering is e, which the adapter's catch-all turns
into an error-status match. -/
def matchCrossref (r : Ref) (env : Except String HttpResp) : IndexMatch :=
  let doi := normalizeDOI (refDOI r)
  match env with
  | .error e =>
    { source := .crossref, status := .error, score := 0, explanation := "error: " ++ e }
  | .ok resp =>
    if doi ≠ "" then crossrefDoiBranch r resp else crossrefSearchBranch r resp

/-! ### Wikidata adapter (matchWikidata, indices.ts:915) -/

/-- The SPARQL DOI-lookup branch (indices.ts:918), after the request returned.
doi is the reference's normalized DOI, which the source also passes as the
candidate DOI into scoreCandidate. -/
def wikidataDoiBranch (r : Ref) (doi : String) (resp : HttpResp) : IndexMatch :=
  if resp.status ≠ 200 then
    { source := .wikidata, status := .error, score := 0,
      explanation := "SPARQL failed (HTTP " ++ toString resp.status ++ ")" }
  else
    let binding := jvIdx (jvGet (jvGet resp.data "results") "bindings") 0
    if !jvTruthy binding then
      { source := .wikidata, status := .not_found, score := 0, explanation := "no DOI match" }
    else
      let title := jsOrS (jvStrD (jvGet (jvGet binding "title") "value")) (refTitle r)
      let dateVal := jvStrD (jvGet (jvGet binding "date") "value")
      let candidateYear := (findYearToken none dateVal.data).getD ""
      let workUrl := jvStr? (jvGet (jvGet binding "work") "value")
      let sc := scoreCandidate r { title := some title, doi := some doi, year := some candidateYear }
      if (0.8 : ℚ) ≤ sc.score then
        { source := .wikidata, status := .validated, score := 1, explanation := "DOI match",
          url := workUrl,
          patch := some [(FieldKey.title, FieldVal.str title), (FieldKey.DOI, FieldVal.str doi),
            (FieldKey.year, strOrFv candidateYear (r FieldKey.year)),
            (FieldKey.date, strOrFv candidateYear (r FieldKey.date))] }
      else
        { source := .wikidata, status := .invalid, score := sc.score,
          explanation := "DOI match but title mismatch (score " ++ ratToFixed2 sc.score ++ ")",
          url := workUrl }

def scholarlyWords : List String := ["article", "book", "paper", "publication", "journal"]

/-- needle occurs as a contiguous run inside the list. -/
def containsSub (needle : List Char) : List Char → Bool
  | [] => startsWithL [] needle
  | c :: rest => startsWithL (c :: rest) needle || containsSub needle rest

/-- The case-insensitive test /article|book|paper|publication|journal/i on an
entity description (indices.ts:990). -/
def descSuggestsWork (desc : String) : Bool :=
  scholarlyWords.any (fun w => containsSub w.data (jsToLower desc).data)

/-- item?.label || item?.display?.label?.value || "". -/
def wikidataLabelOf (item : JsonVal) : String :=
  jsOrS (jvStrD (jvGet item "label"))
    (jsOrS (jvStrD (jvGet (jvGet (jvGet item "display") "label") "value")) "")

/-- item?.description || item?.display?.description?.value || "". -/
def wikidataDescOf (item : JsonVal) : String :=
  jsOrS (jvStrD (jvGet item "description"))
    (jsOrS (jvStrD (jvGet (jvGet (jvGet item "display") "description") "value")) "")

/-- The label-search fallback branch of matchWikidata (indices.ts:960), after
the request returned. -/
def wikidataSearchBranch (r : Ref) (resp : HttpResp) : IndexMatch :=
  if resp.status ≠ 200 then
    { source := .wikidata, status := .error, score := 0,
      explanation := "search failed (HTTP " ++ toString resp.status ++ ")" }
  else
    let search := match jvGet resp.data "search" with
      | .arr l => l
      | _ => []
    if search.isEmpty then
      { source := .wikidata, status := .not_found, score := 0, explanation := "no results" }
    else
      let best := search.foldl (fun best item =>
        let titleSc := diceCoefficient (refTitle r) (wikidataLabelOf item)
        let boost : ℚ := if descSuggestsWork (wikidataDescOf item) then 0.05 else 0
        let s := min 1 (titleSc + boost)
        match best with
        | none => some (item, s)
        | some b => if b.2 < s then some (item, s) else some b) none
      match best with
      | none =>
        { source := .wikidata, status := .not_found, score := 0, explanation := "no usable results" }
      | some b =>
        if (0.85 : ℚ) ≤ b.2 then
          { source := .wikidata, status := .validated, score := b.2,
            explanation := "matched by label (score " ++ ratToFixed2 b.2 ++ ")",
            url := jvStr? (jvGet b.1 "concepturi"),
            patch := some [(FieldKey.title, strOrFv (wikidataLabelOf b.1) (r FieldKey.title))] }
        else
          { source := .wikidata, status := .not_found, score := b.2,
            explanation := "best score too low (" ++ ratToFixed2 b.2 ++ ")" }

/-- Embeds matchWikidata (indices.ts:915).  env is the outcome of the one
outbound request the executed branch performs; the blank-title early return of
the fallback happens before any request is issued and therefore before env is
consulted. -/
def matchWikidata (r : Ref) (env : Except String HttpResp) : IndexMatch :=
  let doi := normalizeDOI (refDOI r)
  if doi ≠ "" then
    match env with
    | .error e =>
      { source := .wikidata, status := .error, score := 0, explanation := "error: " ++ e }
    | .ok resp => wikidataDoiBranch r doi resp
  else if isBlankStr (refTitle r) then
    { source := .wikidata, status := .not_found, score := 0, explanation := "no title to search" }
  else
    match env with
    | .error e =>
      { source := .wikidata, status := .error, score := 0, explanation := "error: " ++ e }
    | .ok resp => wikidataSearchBranch r resp

/-! ### GBV/K10plus SRU adapter (matchGbvK10plus, indices.ts:814) and its XML
plumbing (parseSruDcRecord, indices.ts:762) -/

mutual
inductive Xml
  | elem (ns name : String) (children : XmlForest)
  | text (s : String)
inductive XmlForest
  | nil
  | cons (hd : Xml) (tl : XmlForest)
end

mutual
/-- document.getElementsByTagNameNS(ns, name): matching elements of the tree
in document order; "*" matches any namespace. -/
def xmlDescNS (ns name : String) : Xml → List Xml
  | .text _ => []
  | .elem ens ename cs =>
    (if (ns = "*" ∨ ns = ens) ∧ name = ename then [Xml.elem ens ename cs] else [])
      ++ forestDescNS ns name cs
def forestDescNS (ns name : String) : XmlForest → List Xml
  | .nil => []
  | .cons x xs => xmlDescNS ns name x ++ forestDescNS ns name xs
end

/-- element.getElementsByTagNameNS(ns, name): matching proper descendants. -/
def childDescNS (ns name : String) : Xml → List Xml
  | .text _ => []
  | .elem _ _ cs => forestDescNS ns name cs

mutual
def xmlTextContent : Xml → String
  | .text s => s
  | .elem _ _ cs => forestTextContent cs
def forestTextContent : XmlForest → String
  | .nil => ""
  | .cons x xs => xmlTextContent x ++ forestTextContent xs
end

structure SruRecord where
  title : String
  creator : String
  date : String
  identifiers : List String
  recordId : Option String
deriving DecidableEq, Repr

def nsDc : String := "http://purl.org/dc/elements/1.1/"

def nsSrw : String := "http://www.loc.gov/zing/srw/"

/-- node?.[0]?.textContent?.trim() || "". -/
def firstTextTrim (l : List Xml) : String :=
  match l.head? with
  | some e => jsTrim (xmlTextContent e)
  | none => ""

/-- Embeds parseSruDcRecord (indices.ts:762). -/
def parseSruDcRecord (doc : Xml) : List SruRecord :=
  (xmlDescNS "*" "record" doc).filterMap (fun record =>
    let title := firstTextTrim (childDescNS nsDc "title" record)
    let creator := firstTextTrim (childDescNS nsDc "creator" record)
    let date := firstTextTrim (childDescNS nsDc "date" record)
    let identifiers := ((childDescNS nsDc "identifier" record).map
      (fun n => jsTrim (xmlTextContent n))).filter (fun s => !(s == ""))
    let recordId :=
      let a := firstTextTrim (childDescNS nsSrw "recordIdentifier" record)
      let b := firstTextTrim (childDescNS "*" "recordIdentifier" record)
      if a ≠ "" then some a else if b ≠ "" then some b else none
    if title = "" ∧ creator = "" ∧ date = "" ∧ identifiers = [] then none
    else some ⟨title, creator, date, identifiers, recordId⟩)

/-! URL encoding used for the SRU request url and the catalog record url. -/

def hexDigitU (n : Nat) : Char :=
  if n < 10 then Char.ofNat (48 + n) else Char.ofNat (55 + n)

def percentByte (b : Nat) : String :=
  String.mk ['%', hexDigitU (b / 16), hexDigitU (b % 16)]

def utf8Bytes (c : Char) : List Nat :=
  let n := c.toNat
  if n < 0x80 then [n]
  else if n < 0x800 then [0xC0 + n / 64, 0x80 + n % 64]
  else if n < 0x10000 then [0xE0 + n / 4096, 0x80 + n / 64 % 64, 0x80 + n % 64]
  else [0xF0 + n / 262144, 0x80 + n / 4096 % 64, 0x80 + n / 64 % 64, 0x80 + n % 64]

def uriMarkChars : List Char :=
  ['-', '_', '.', '!', '~', '*', Char.ofNat 0x27, '(', ')']

/-- JS encodeURIComponent. -/
def encodeURIComponent (s : String) : String :=
  String.join (s.data.map (fun c =>
    if c.isAlphanum || c ∈ uriMarkChars then String.mk [c]
    else String.join ((utf8Bytes c).map percentByte)))

/-- URLSearchParams form encoding of one value. -/
def formEncode (s : String) : String :=
  String.join (s.data.map (fun c =>
    if c = ' ' then "+"
    else if c.isAlphanum || c ∈ (['*', '-', '.', '_'] : List Char) then String.mk [c]
    else String.join ((utf8Bytes c).map percentByte)))

/-- The SRU endpoint answers with responseType text: status plus the raw text
body in the response/responseText fields. -/
structure SruHttpResp where
  status : Nat
  responseText : String
  response : String

/-- Embeds extractIsbnFromIdentifiers (indices.ts:797).  cleanISBN is the
host-provided Zotero.Utilities.cleanISBN; none models both a null result and a
thrown exception, which the source's local try/catch ignores. -/
def extractIsbnFromIdentifiers (cleanISBN : String → Option String) :
    List String → String
  | [] => ""
  | ident :: rest =>
    let s0 := if jsStartsWith (jsToLower ident) "urn:isbn:" then jsDrop ident 9 else ident
    let s1 := if jsStartsWith (jsToLower s0) "isbn:" then jsDrop s0 5 else s0
    let cleaned := String.mk (s1.data.filter (fun c => c.isDigit || c = 'X' || c = 'x'))
    if cleaned = "" then extractIsbnFromIdentifiers cleanISBN rest
    else match cleanISBN cleaned with
      | some n => if n ≠ "" then n else extractIsbnFromIdentifiers cleanISBN rest
      | none => extractIsbnFromIdentifiers cleanISBN rest

/-- item.creator.split(",")[0] || item.creator.split(" ").slice(-1)[0] || "". -/
def gbvCandidateSurname (creator : String) : String :=
  jsOrS ((splitOnChar ',' creator).headD "")
    (jsOrS ((splitOnChar ' ' creator).getLastD "") "")

/-- The per-record score of the GBV adapter (indices.ts:870): 0.9 title dice
plus 0.1 exact-surname match, deliberately not the generic scorer. -/
def gbvScore (r : Ref) (item : SruRecord) : ℚ :=
  let titleSc := diceCoefficient (refTitle r) item.title
  let surname := gbvCandidateSurname item.creator
  let authorSc : ℚ :=
    if firstAuthorLastName r ≠ "" ∧ surname ≠ "" then
      (if firstAuthorLastName r = normalizeText surname then 1 else 0)
    else 0
  (0.9 : ℚ) * titleSc + 0.1 * authorSc

def gbvBestOf (r : Ref) (parsed : List SruRecord) : Option (SruRecord × ℚ) :=
  parsed.foldl (fun best item =>
    let s := gbvScore r item
    match best with
    | none => some (item, s)
    | some b => if b.2 < s then some (item, s) else some b) none

/-- Embeds matchGbvK10plus (indices.ts:814).  env is the outcome of the one
SRU request (issued only after the early missing-title returns); domParse is
the host DOMParser, which never throws (invalid XML yields a parsererror
document, i.e. some Xml tree without record elements); cleanISBN is the host
ISBN canonicalizer. -/
def matchGbvK10plus (r : Ref) (sruUrl : Option String) (env : Except String SruHttpResp)
    (domParse : String → Xml) (cleanISBN : String → Option String) : IndexMatch :=
  let baseUrl := jsTrim (jsOrS (sruUrl.getD "") "https://sru.k10plus.de/gvk")
  let titleTokens := ((splitOnChar ' ' (normalizeText (refTitle r))).filter
    (fun t => decide (3 ≤ t.length))).take 5
  if titleTokens = [] then
    { source := .gbv, status := .not_found, score := 0, explanation := "missing title" }
  else
    let titleQuery := String.intercalate " and " (titleTokens.map (fun t => "pica.tit=" ++ t))
    let author := firstAuthorLastName r
    let query := titleQuery ++ (if author ≠ "" then " and pica.per=" ++ author else "")
    if query = "" then
      { source := .gbv, status := .not_found, score := 0, explanation := "missing title" }
    else
      let url := baseUrl ++ "?version=1.1&operation=searchRetrieve&query=" ++ formEncode query
        ++ "&maximumRecords=5&recordSchema=dc"
      match env with
      | .error e =>
        { source := .gbv, status := .error, score := 0, explanation := "error: " ++ e }
      | .ok resp =>
        if resp.status ≠ 200 then
          { source := .gbv, status := .error, score := 0,
            explanation := "search failed (HTTP " ++ toString resp.status ++ ")",
            url := some url }
        else
          let xmlText := jsOrS resp.responseText (jsOrS resp.response "")
          if xmlText = "" then
            { source := .gbv, status := .error, score := 0, explanation := "empty SRU response" }
          else
            let parsed := parseSruDcRecord (domParse xmlText)
            if parsed = [] then
              { source := .gbv, status := .not_found, score := 0, explanation := "no results" }
            else
              match gbvBestOf r parsed with
              | none =>
                { source := .gbv, status := .not_found, score := 0,
                  explanation := "no usable results" }
              | some best =>
                if (0.8 : ℚ) ≤ best.2 then
                  let candidateYear := (findYearToken none best.1.date.data).getD ""
                  let isbn := extractIsbnFromIdentifiers cleanISBN best.1.identifiers
                  let patch : Patch :=
                    [(FieldKey.title, strOrFv best.1.title (r FieldKey.title)),
                      (FieldKey.year, strOrFv candidateYear (r FieldKey.year)),
                      (FieldKey.date, strOrFv candidateYear (r FieldKey.date)),
                      (FieldKey.ISBN, strOrFv isbn (r FieldKey.ISBN))]
                  let recordUrl := best.1.recordId.map (fun rid =>
                    "https://kxp.k10plus.de/DB=2.299/PPNSET?PPN=" ++ encodeURIComponent rid)
                  { source := .gbv, status := .validated, score := best.2,
                    explanation := "matched (score " ++ ratToFixed2 best.2 ++ ")",
                    url := recordUrl, patch := some patch }
                else
                  { source := .gbv, status := .not_found, score := best.2,
                    explanation := "best score too low (" ++ ratToFixed2 best.2 ++ ")",
                    url := some url }

/-! ## Shared lemmas -/

/-- The DOI-equal short circuit of scoreCandidate. -/
theorem scoreCandidate_doi_eq (r : Ref) (cand : Candidate)
    (href : normalizeDOI (refDOI r) ≠ "") (hcand : normalizeDOI cand.doi ≠ "")
    (heq : normalizeDOI (refDOI r) = normalizeDOI cand.doi) :
    scoreCandidate r cand = ⟨1, false⟩ := by
  unfold scoreCandidate
  rw [if_pos ⟨href, hcand⟩, if_pos heq]

/-- The DOI-mismatch short circuit of scoreCandidate. -/
theorem scoreCandidate_doi_ne (r : Ref) (cand : Candidate)
    (href : normalizeDOI (refDOI r) ≠ "") (hcand : normalizeDOI cand.doi ≠ "")
    (hne : normalizeDOI (refDOI r) ≠ normalizeDOI cand.doi) :
    scoreCandidate r cand = ⟨0, true⟩ := by
  unfold scoreCandidate
  rw [if_pos ⟨href, hcand⟩, if_neg hne]

/-- Example reference carrying a plain DOI and a title. -/
def exRefDoi : Ref := fun f =>
  match f with
  | FieldKey.title => FieldVal.str "Some Quite Different Title"
  | FieldKey.DOI => FieldVal.str "10.1234/abc"
  | _ => FieldVal.absent

/-! ## C1 -/

/-- C1: when both the reference DOI and the candidate DOI normalize to
non-empty strings, scoreCandidate short-circuits on identifiers alone: equal
normalized DOIs give score 1 with doiMismatch false, unequal ones give score 0
with doiMismatch true, independently of title/author/year content. -/
theorem scoreCandidate_doi_precedence (r : Ref) (cand : Candidate)
    (href : normalizeDOI (refDOI r) ≠ "") (hcand : normalizeDOI cand.doi ≠ "") :
    (normalizeDOI (refDOI r) = normalizeDOI cand.doi →
      scoreCandidate r cand = ⟨1, false⟩) ∧
    (normalizeDOI (refDOI r) ≠ normalizeDOI cand.doi →
      scoreCandidate r cand = ⟨0, true⟩) :=
  ⟨scoreCandidate_doi_eq r cand href hcand, scoreCandidate_doi_ne r cand href hcand⟩

/-- C1 witness: a reference with DOI 10.1234/abc against a candidate carrying
the same DOI behind a doi: prefix (score 1, despite a dissimilar title), and
against a candidate carrying a different DOI (score 0, mismatch). -/
theorem scoreCandidate_doi_precedence_witness :
    scoreCandidate exRefDoi ⟨some "x", some "doi:10.1234/abc", none, none⟩ = ⟨1, false⟩ ∧
    scoreCandidate exRefDoi ⟨some "Some Quite Different Title", some "10.9/z", none, none⟩ =
      ⟨0, true⟩ :=
  ⟨(scoreCandidate_doi_precedence exRefDoi _ (by decide) (by decide)).1 (by decide),
    (scoreCandidate_doi_precedence exRefDoi _ (by decide) (by decide)).2 (by decide)⟩

/-! ## C8 -/

/-- C8 counterexample: "the" is a non-blank string in the isBlank sense, yet
diceCoefficient("the", "the") is 0, because the stopword filter of
normalizeText empties it before comparison (the claim asserts 1 for every
non-blank x). -/
theorem diceCoefficient_self_cex :
    isBlankStr "the" = false ∧ diceCoefficient "the" "the" = 0 := by
  constructor
  · decide
  · simp +decide only [diceCoefficient]

/-- C8 (amended): diceCoefficient(x, x) = 1 for every x that is non-empty
after normalization (normalizeText followed by the whitespace strip), rather
than for every non-blank x. -/
theorem diceCoefficient_self (x : String)
    (h : stripSpacesNorm (normalizeText x) ≠ []) :
    diceCoefficient x x = 1 := by
  unfold diceCoefficient
  rw [if_neg (by simp [h]), if_pos rfl]

/-- C8 witness: "cat" survives normalization, and its self-similarity is 1. -/
theorem diceCoefficient_self_witness : diceCoefficient "cat" "cat" = 1 :=
  diceCoefficient_self "cat" (by decide)

/-! ## Bounds on the similarity components (shared) -/

theorem intersectCount_le_len (l : List (Char × Char)) :
    ∀ avail, intersectCount avail l ≤ l.length := by
  induction l with
  | nil => intro avail; simp [intersectCount]
  | cons bg rest ih =>
    intro avail
    unfold intersectCount
    split
    · exact Nat.succ_le_succ (ih _)
    · exact Nat.le_succ_of_le (ih _)

theorem intersectCount_le_avail (l : List (Char × Char)) :
    ∀ avail, intersectCount avail l ≤ avail.length := by
  induction l with
  | nil => intro avail; simp [intersectCount]
  | cons bg rest ih =>
    intro avail
    unfold intersectCount
    split
    · rename_i h
      have h1 := ih (avail.erase bg)
      have h2 : (avail.erase bg).length = avail.length - 1 := List.length_erase_of_mem h
      have h3 : avail ≠ [] := List.ne_nil_of_mem h
      have h4 : 0 < avail.length := List.length_pos.mpr h3
      omega
    · exact ih avail

theorem bigrams_length (s : List Char) : (bigrams s).length = s.length - 1 := by
  induction s with
  | nil => simp [bigrams]
  | cons a t ih =>
    cases t with
    | nil => simp [bigrams]
    | cons b rest =>
      show ((a, b) :: bigrams (b :: rest)).length = (a :: b :: rest).length - 1
      simp only [List.length_cons] at ih ⊢
      omega

theorem diceCoefficient_nonneg (a b : String) : 0 ≤ diceCoefficient a b := by
  simp only [diceCoefficient]
  repeat' split
  any_goals norm_num
  apply div_nonneg
  · positivity
  · positivity

theorem diceCoefficient_le_one (a b : String) : diceCoefficient a b ≤ 1 := by
  simp only [diceCoefficient]
  split
  · norm_num
  · split
    · norm_num
    · split
      · norm_num
      · rename_i hlen
        push_neg at hlen
        set s1 := stripSpacesNorm (normalizeText a) with hs1
        set s2 := stripSpacesNorm (normalizeText b) with hs2
        have hI1 : intersectCount (bigrams s1) (bigrams s2) ≤ s1.length - 1 := by
          have := intersectCount_le_avail (bigrams s2) (bigrams s1)
          rw [bigrams_length] at this
          exact this
        have hI2 : intersectCount (bigrams s1) (bigrams s2) ≤ s2.length - 1 := by
          have := intersectCount_le_len (bigrams s2) (bigrams s1)
          rw [bigrams_length] at this
          exact this
        have h2a : 2 ≤ s1.length := by omega
        have hn1 : 0 < (s1.length - 1) + (s2.length - 1) := by omega
        have hn2 : 2 * intersectCount (bigrams s1) (bigrams s2) ≤
            (s1.length - 1) + (s2.length - 1) := by omega
        rw [div_le_one (by exact_mod_cast hn1)]
        exact_mod_cast hn2

theorem titleScore_nonneg (r : Ref) (cand : Candidate) : 0 ≤ titleScore r cand := by
  unfold titleScore
  split
  · split
    · exact diceCoefficient_nonneg _ _
    · norm_num
  · norm_num

theorem titleScore_le_one (r : Ref) (cand : Candidate) : titleScore r cand ≤ 1 := by
  unfold titleScore
  split
  · split
    · exact diceCoefficient_le_one _ _
    · norm_num
  · norm_num

theorem authorScore_zero_or_one (r : Ref) (cand : Candidate) :
    authorScore r cand = 0 ∨ authorScore r cand = 1 := by
  unfold authorScore
  repeat' split
  all_goals simp

theorem yearScore_zero_or_one (r : Ref) (cand : Candidate) :
    yearScore r cand = 0 ∨ yearScore r cand = 1 := by
  unfold yearScore
  repeat' split
  all_goals simp

/-! ## C5 -/

/-- Example reference with no DOI but perfect title/author/year data. -/
def exRefComposite : Ref := fun f =>
  match f with
  | FieldKey.title => FieldVal.str "Cat"
  | FieldKey.authors => FieldVal.authorsVal [⟨"Jane", "Smith"⟩]
  | FieldKey.year => FieldVal.str "2020"
  | _ => FieldVal.absent

/-- C5 counterexample: score 1 is not reserved for identifier matches.  A
reference without any DOI, scored against a DOI-less candidate with identical
normalized title, matching first-author surname, and matching year, receives
exactly 0.75·1 + 0.2·1 + 0.05·1 = 1 from the composite branch. -/
theorem scoreCandidate_one_without_doi_cex :
    refDOI exRefComposite = none ∧
    scoreCandidate exRefComposite ⟨some "Cat", none, some "2020", some "Smith"⟩ =
      ⟨1, false⟩ := by
  constructor
  · decide
  · simp +decide only [scoreCandidate, titleScore, authorScore, yearScore, diceCoefficient]
    norm_num

/-- C5 (amended): scoreCandidate returns score 1 exactly when either both
normalized DOIs are present and equal (the identifier short circuit), or the
DOI branch is not taken and every composite component is maximal: title Dice
similarity 1, exact author match, and exact year match (the weights 0.75 +
0.2 + 0.05 sum to 1, so a perfect composite also attains 1). -/
theorem scoreCandidate_eq_one_iff (r : Ref) (cand : Candidate) :
    (scoreCandidate r cand).score = 1 ↔
      ((normalizeDOI (refDOI r) ≠ "" ∧ normalizeDOI cand.doi ≠ "" ∧
          normalizeDOI (refDOI r) = normalizeDOI cand.doi) ∨
        (¬(normalizeDOI (refDOI r) ≠ "" ∧ normalizeDOI cand.doi ≠ "") ∧
          titleScore r cand = 1 ∧ authorScore r cand = 1 ∧ yearScore r cand = 1)) := by
  simp only [scoreCandidate]
  split
  · rename_i hdoi
    split
    · rename_i heq
      constructor
      · intro _; exact Or.inl ⟨hdoi.1, hdoi.2, heq⟩
      · intro _; rfl
    · rename_i hne
      constructor
      · intro h0
        simp at h0
      · rintro (⟨_, _, heq⟩ | ⟨hnd, _⟩)
        · exact absurd heq hne
        · exact absurd hdoi hnd
  · rename_i hdoi
    have ht0 := titleScore_nonneg r cand
    have ht1 := titleScore_le_one r cand
    have ha := authorScore_zero_or_one r cand
    have hy := yearScore_zero_or_one r cand
    constructor
    · intro hs
      simp only at hs
      refine Or.inr ⟨hdoi, ?_, ?_, ?_⟩
      · rcases ha with ha | ha <;> rcases hy with hy | hy <;>
          rw [ha, hy] at hs <;> linarith
      · rcases ha with ha | ha
        · rcases hy with hy | hy <;> rw [ha, hy] at hs <;> linarith
        · exact ha
      · rcases hy with hy | hy
        · rcases ha with ha | ha <;> rw [ha, hy] at hs <;> linarith
        · exact hy
    · rintro (⟨h1, h2, _⟩ | ⟨_, ht, hau, hyr⟩)
      · exact absurd ⟨h1, h2⟩ hdoi
      · simp only [ht, hau, hyr]
        norm_num

/-- C5 witness (for the amended claim): the identifier direction at a concrete
DOI-equal pair, and the composite direction at the perfect-composite pair. -/
theorem scoreCandidate_eq_one_iff_witness :
    (scoreCandidate exRefDoi ⟨some "x", some "doi:10.1234/abc", none, none⟩).score = 1 ∧
    (scoreCandidate exRefComposite ⟨some "Cat", none, some "2020", some "Smith"⟩).score = 1 := by
  constructor
  · exact (scoreCandidate_eq_one_iff exRefDoi _).mpr (Or.inl (by refine ⟨?_, ?_, ?_⟩ <;> decide))
  · refine (scoreCandidate_eq_one_iff exRefComposite _).mpr (Or.inr ⟨by decide, ?_, ?_, ?_⟩) <;>
      simp +decide only [titleScore, authorScore, yearScore, diceCoefficient]

/-! ## Comparator lemmas (shared) -/

theorem betterMatch_false_iff (a b : IndexMatch) :
    betterMatch a b = false ↔
      (statusRank b < statusRank a ∨ (statusRank a = statusRank b ∧ a.score ≤ b.score)) := by
  simp only [betterMatch, Bool.or_eq_false_iff, Bool.and_eq_false_iff,
    decide_eq_false_iff_not, not_lt, beq_eq_false_iff_ne, ne_eq]
  constructor
  · rintro ⟨hle, hne | hsle⟩
    · left; omega
    · by_cases he : statusRank a = statusRank b
      · exact Or.inr ⟨he, hsle⟩
      · left; omega
  · rintro (hlt | ⟨he, hs⟩)
    · exact ⟨by omega, Or.inl (by omega)⟩
    · exact ⟨by omega, Or.inr hs⟩

theorem betterMatch_true_iff (a b : IndexMatch) :
    betterMatch a b = true ↔
      (statusRank a < statusRank b ∨ (statusRank a = statusRank b ∧ b.score < a.score)) := by
  simp only [betterMatch, Bool.or_eq_true, Bool.and_eq_true, decide_eq_true_eq, beq_iff_eq]

theorem betterMatch_irrefl (a : IndexMatch) : betterMatch a a = false := by
  rw [betterMatch_false_iff]
  exact Or.inr ⟨rfl, le_refl _⟩

theorem betterMatch_trans {a b c : IndexMatch} (hab : betterMatch a b = true)
    (hbc : betterMatch b c = true) : betterMatch a c = true := by
  rw [betterMatch_true_iff] at *
  rcases hab with h | ⟨he, hs⟩ <;> rcases hbc with h2 | ⟨he2, hs2⟩
  · left; omega
  · left; omega
  · left; omega
  · exact Or.inr ⟨by omega, lt_trans hs2 hs⟩

theorem notBetter_trans {a b c : IndexMatch} (hab : betterMatch a b = false)
    (hbc : betterMatch b c = false) : betterMatch a c = false := by
  rw [betterMatch_false_iff] at *
  rcases hab with h | ⟨he, hs⟩ <;> rcases hbc with h2 | ⟨he2, hs2⟩
  · left; omega
  · left; omega
  · left; omega
  · exact Or.inr ⟨by omega, le_trans hs hs2⟩

theorem foldl_pickBetter_spec (l : List IndexMatch) :
    ∀ c : IndexMatch, ∃ d, l.foldl pickBetter (some c) = some d ∧ (d = c ∨ d ∈ l) ∧
      betterMatch c d = false ∧ ∀ m ∈ l, betterMatch m d = false := by
  induction l with
  | nil =>
    intro c
    exact ⟨c, rfl, Or.inl rfl, betterMatch_irrefl c, by simp⟩
  | cons m rest ih =>
    intro c
    rw [List.foldl_cons]
    by_cases hbet : betterMatch m c = true
    · rw [show pickBetter (some c) m = some m from by simp [pickBetter, hbet]]
      obtain ⟨d, hf, hmem, hmd, hall⟩ := ih m
      refine ⟨d, hf, ?_, ?_, ?_⟩
      · rcases hmem with rfl | hm
        · exact Or.inr (List.mem_cons_self _ _)
        · exact Or.inr (List.mem_cons_of_mem _ hm)
      · cases hcd : betterMatch c d with
        | false => rfl
        | true =>
          have hmdT : betterMatch m d = true := betterMatch_trans hbet hcd
          rw [hmd] at hmdT
          exact absurd hmdT (by simp)
      · intro x hx
        rcases List.mem_cons.mp hx with rfl | hx2
        · exact hmd
        · exact hall x hx2
    · rw [show pickBetter (some c) m = some c from by simp [pickBetter, hbet]]
      obtain ⟨d, hf, hmem, hcd, hall⟩ := ih c
      refine ⟨d, hf, ?_, hcd, ?_⟩
      · rcases hmem with rfl | hm
        · exact Or.inl rfl
        · exact Or.inr (List.mem_cons_of_mem _ hm)
      · intro x hx
        rcases List.mem_cons.mp hx with rfl | hx2
        · exact notBetter_trans (Bool.not_eq_true _ ▸ hbet : betterMatch x c = false) hcd
        · exact hall x hx2

theorem selectBest_spec (ms : List IndexMatch) (hne : ms ≠ []) :
    ∃ d, selectBest ms = some d ∧ d ∈ ms ∧ ∀ m ∈ ms, betterMatch m d = false := by
  cases ms with
  | nil => exact absurd rfl hne
  | cons m rest =>
    obtain ⟨d, hf, hmem, hcd, hall⟩ := foldl_pickBetter_spec rest m
    have hsel : selectBest (m :: rest) = some d := by
      show (m :: rest).foldl pickBetter none = some d
      rw [List.foldl_cons]
      exact hf
    refine ⟨d, hsel, ?_, ?_⟩
    · rcases hmem with rfl | hm
      · exact List.mem_cons_self _ _
      · exact List.mem_cons_of_mem _ hm
    · intro x hx
      rcases List.mem_cons.mp hx with rfl | hx2
      · exact hcd
      · exact hall x hx2

theorem statusRank_eq_zero_iff (m : IndexMatch) :
    statusRank m = 0 ↔ m.status = IndexStatus.validated := by
  unfold statusRank
  cases h : m.status <;> simp [h]

/-! ## C2 -/

/-- C2: the engine's best-match selection always ranks validated > invalid >
not_found > error with score as the within-rank tiebreaker: whenever the match
set contains a validated match, the selected best is a validated one whose
score dominates every validated match (so four matches with the four distinct
statuses always yield the validated one, whatever the scores); and between two
validated matches, the strictly higher-scored one is selected in either
order. -/
theorem selectBest_rank_ordering :
    (∀ ms : List IndexMatch, (∃ m ∈ ms, m.status = IndexStatus.validated) →
      ∃ b, selectBest ms = some b ∧ b ∈ ms ∧ b.status = IndexStatus.validated ∧
        ∀ m ∈ ms, m.status = IndexStatus.validated → m.score ≤ b.score) ∧
    (∀ a b : IndexMatch, a.status = IndexStatus.validated →
      b.status = IndexStatus.validated → a.score < b.score →
      selectBest [a, b] = some b ∧ selectBest [b, a] = some b) := by
  constructor
  · rintro ms ⟨mv, hmv, hv⟩
    obtain ⟨d, hsel, hdmem, hall⟩ := selectBest_spec ms (List.ne_nil_of_mem hmv)
    have hrv : statusRank mv = 0 := (statusRank_eq_zero_iff mv).mpr hv
    have hnb := (betterMatch_false_iff mv d).mp (hall mv hmv)
    have hd0 : statusRank d = 0 := by omega
    refine ⟨d, hsel, hdmem, (statusRank_eq_zero_iff d).mp hd0, ?_⟩
    intro m hm hmval
    have hrm : statusRank m = 0 := (statusRank_eq_zero_iff m).mpr hmval
    have := (betterMatch_false_iff m d).mp (hall m hm)
    rcases this with h | ⟨_, hs⟩
    · omega
    · exact hs
  · intro a b ha hb hab
    have h1 : betterMatch b a = true := by
      rw [betterMatch_true_iff]
      exact Or.inr ⟨by rw [statusRank, statusRank, ha, hb], hab⟩
    have h2 : betterMatch a b = false := by
      rw [betterMatch_false_iff]
      exact Or.inr ⟨by rw [statusRank, statusRank, ha, hb], le_of_lt hab⟩
    constructor
    · show ([a, b].foldl pickBetter none) = some b
      simp [List.foldl, pickBetter, h1]
    · show ([b, a].foldl pickBetter none) = some b
      simp [List.foldl, pickBetter, h2]

def exMatchErr : IndexMatch := ⟨.crossref, .error, 9, "boom", none, none⟩

def exMatchVal : IndexMatch := ⟨.openalex, .validated, 0.1, "ok", none, none⟩

def exMatchInv : IndexMatch := ⟨.lobid, .invalid, 8, "no", none, none⟩

def exMatchNf : IndexMatch := ⟨.loc, .not_found, 7, "nf", none, none⟩

def exMatchVal2 : IndexMatch := ⟨.wikidata, .validated, 0.2, "ok2", none, none⟩

/-- C2 witness: on one match per status (the non-validated ones carrying much
higher scores), the selected best is validated; and between the two validated
matches with scores 0.1 < 0.2, the higher one wins in both orders. -/
theorem selectBest_rank_ordering_witness :
    (∃ b, selectBest [exMatchErr, exMatchVal, exMatchInv, exMatchNf] = some b ∧
      b ∈ [exMatchErr, exMatchVal, exMatchInv, exMatchNf] ∧
      b.status = IndexStatus.validated ∧
      ∀ m ∈ [exMatchErr, exMatchVal, exMatchInv, exMatchNf],
        m.status = IndexStatus.validated → m.score ≤ b.score) ∧
    selectBest [exMatchVal, exMatchVal2] = some exMatchVal2 ∧
    selectBest [exMatchVal2, exMatchVal] = some exMatchVal2 := by
  refine ⟨selectBest_rank_ordering.1 _ ⟨exMatchVal, ?_, rfl⟩, ?_⟩
  · exact List.mem_cons_of_mem _ (List.mem_cons_self _ _)
  · exact selectBest_rank_ordering.2 exMatchVal exMatchVal2 rfl rfl (by norm_num [exMatchVal, exMatchVal2])

/-! ## applyPatch lemmas (shared) -/

theorem applyPatchStep_ne (fo : Bool) (merged : Ref) (kv : FieldKey × FieldVal)
    (f : FieldKey) (h : kv.1 ≠ f) : applyPatchStep fo merged kv f = merged f := by
  unfold applyPatchStep
  repeat' split
  any_goals rfl
  all_goals exact Function.update_noteq (Ne.symm h) _ _

/-- A fold over entries none of which targets f leaves f untouched. -/
theorem foldl_applyPatchStep_no_key (fo : Bool) (f : FieldKey) :
    ∀ (patch : Patch), (∀ kv ∈ patch, kv.1 ≠ f) →
    ∀ merged : Ref, (patch.foldl (applyPatchStep fo) merged) f = merged f := by
  intro patch
  induction patch with
  | nil => intro _ merged; rfl
  | cons kv rest ih =>
    intro hno merged
    rw [List.foldl_cons]
    rw [ih (fun x hx => hno x (List.mem_cons_of_mem _ hx)) _]
    exact applyPatchStep_ne fo merged kv f (hno kv (List.mem_cons_self _ _))

/-- A populated (non-blank) field is never changed by the fold when
forceOverwrite is off. -/
theorem foldl_applyPatchStep_keeps_nonblank (f : FieldKey) :
    ∀ (patch : Patch) (merged : Ref), isBlankVal (merged f) = false →
    (patch.foldl (applyPatchStep false) merged) f = merged f := by
  intro patch
  induction patch with
  | nil => intro merged _; rfl
  | cons kv rest ih =>
    intro merged hnb
    rw [List.foldl_cons]
    have hstep : applyPatchStep false merged kv f = merged f := by
      by_cases hkf : kv.1 = f
      · unfold applyPatchStep
        by_cases hb2 : isBlankVal kv.2 = true
        · rw [if_pos hb2]
        · rw [if_neg hb2, if_neg (by simp), if_neg (by simp [hkf, hnb])]
      · exact applyPatchStep_ne false merged kv f hkf
    have hnb2 : isBlankVal ((applyPatchStep false merged kv) f) = false := by
      rw [hstep]; exact hnb
    rw [ih (applyPatchStep false merged kv) hnb2, hstep]

/-! ## C3 -/

/-- C3: the overwrite policy of applyPatch and the engine's forceOverwrite
flag.  (a) With forceOverwrite off, a populated (non-blank) field of the
reference is left unchanged by applyPatch, whatever the patch.  (b) With
forceOverwrite on (and enrichment on), a field of the designated overwritable
set whose unique patch entry is non-blank is replaced by the patch value even
though it was populated.  (c) The engine computes the flag for the selected
best match exactly as enrichFromIndexes AND status = validated AND
score ≥ 0.95, and hands the best match's patch to applyPatch under it. -/
theorem applyPatch_overwrite_policy :
    (∀ (ref : Ref) (patch : Patch) (enrich : Bool) (f : FieldKey),
      isBlankVal (ref f) = false →
      applyPatch ref patch enrich false f = ref f) ∧
    (∀ (ref : Ref) (patch : Patch) (f : FieldKey) (v : FieldVal),
      patch.filter (fun kv => decide (kv.1 = f)) = [(f, v)] →
      isBlankVal v = false → f ∈ overwriteKeys →
      applyPatch ref patch true true f = v) ∧
    (∀ (prefs : IndexPreferences) (ref : Ref) (ms : List IndexMatch)
        (b : IndexMatch) (p : Patch),
      selectBest ms = some b → b.patch = some p →
      (processOne prefs ref ms).1 =
        applyPatch ref p prefs.enrichFromIndexes (forceOverwriteFor prefs b)) ∧
    (∀ (prefs : IndexPreferences) (b : IndexMatch),
      forceOverwriteFor prefs b = true ↔
        (prefs.enrichFromIndexes = true ∧ b.status = IndexStatus.validated ∧
          (0.95 : ℚ) ≤ b.score)) := by
  refine ⟨?_, ?_, ?_, ?_⟩
  · intro ref patch enrich f hnb
    unfold applyPatch
    split
    · exact foldl_applyPatchStep_keeps_nonblank f patch ref hnb
    · rfl
  · intro ref patch f v
    induction patch generalizing ref with
    | nil => intro hfil; simp at hfil
    | cons kv rest ih =>
      intro hfil hnb hmem
      by_cases hkf : kv.1 = f
      · rw [List.filter_cons_of_pos (by simpa using hkf)] at hfil
        have hkv : kv = (f, v) := by
          have := List.head_eq_of_cons_eq hfil
          exact this
        have hrest : rest.filter (fun kv => decide (kv.1 = f)) = [] :=
          List.tail_eq_of_cons_eq hfil
        have hnokey : ∀ kv2 ∈ rest, kv2.1 ≠ f := by
          intro kv2 hk2
          have := List.filter_eq_nil_iff.mp hrest kv2 hk2
          simpa using this
        unfold applyPatch
        rw [if_pos rfl, List.foldl_cons,
          foldl_applyPatchStep_no_key true f rest hnokey]
        subst hkv
        unfold applyPatchStep
        rw [if_neg (by simp [hnb]), if_pos ⟨rfl, hmem⟩]
        exact Function.update_same _ _ _
      · rw [List.filter_cons_of_neg (by simpa using hkf)] at hfil
        have hstep := ih (applyPatchStep true ref kv) hfil hnb hmem
        unfold applyPatch at hstep ⊢
        rw [if_pos rfl] at hstep ⊢
        rw [List.foldl_cons]
        exact hstep
  · intro prefs ref ms b p hsel hp
    simp only [processOne, hsel, hp]
  · intro prefs b
    unfold forceOverwriteFor
    simp [Bool.and_eq_true, decide_eq_true_eq, and_assoc]

def exRefPopulated : Ref := fun f =>
  match f with
  | FieldKey.title => FieldVal.str "Old Title"
  | _ => FieldVal.absent

def exPatchTitle : Patch := [(FieldKey.title, FieldVal.str "New Title")]

def exMatchWithPatch : IndexMatch :=
  ⟨.crossref, .validated, 1, "matched", none, some exPatchTitle⟩

def exPrefs : IndexPreferences :=
  { enabled := true, enrichFromIndexes := true, crossref := true, openalex := false,
    lobid := false, loc := false, gbv := false, wikidata := false }

/-- C3 witness: a populated title survives a non-forced patch; a forced patch
replaces it; the engine applies the selected match's patch under the computed
flag; and the flag formula at a concrete validated match of score 1. -/
theorem applyPatch_overwrite_policy_witness :
    applyPatch exRefPopulated exPatchTitle true false FieldKey.title =
      FieldVal.str "Old Title" ∧
    applyPatch exRefPopulated exPatchTitle true true FieldKey.title =
      FieldVal.str "New Title" ∧
    (processOne exPrefs exRefPopulated [exMatchWithPatch]).1 =
      applyPatch exRefPopulated exPatchTitle true
        (forceOverwriteFor exPrefs exMatchWithPatch) ∧
    forceOverwriteFor exPrefs exMatchWithPatch = true := by
  refine ⟨applyPatch_overwrite_policy.1 exRefPopulated exPatchTitle true FieldKey.title
      (by decide),
    applyPatch_overwrite_policy.2.1 exRefPopulated exPatchTitle FieldKey.title
      (FieldVal.str "New Title") (by decide) (by decide) (by decide),
    applyPatch_overwrite_policy.2.2.1 exPrefs exRefPopulated [exMatchWithPatch]
      exMatchWithPatch exPatchTitle rfl rfl,
    ((applyPatch_overwrite_policy.2.2.2 exPrefs exMatchWithPatch).mpr
      ⟨rfl, rfl, by norm_num [exMatchWithPatch]⟩)⟩

/-! ## C4 -/

/-- C4: a patch entry that is blank (absent/null, empty or whitespace-only
string, or the literal string "null" in any case) is never applied, under
every combination of the enrichment and force flags: the merged reference
keeps its prior value at that field. -/
theorem foldl_applyPatchStep_blank_skipped (force : Bool) (f : FieldKey) :
    ∀ (patch : Patch), (∀ v : FieldVal, (f, v) ∈ patch → isBlankVal v = true) →
    ∀ ref : Ref, (patch.foldl (applyPatchStep force) ref) f = ref f := by
  intro patch
  induction patch with
  | nil => intro _ ref; rfl
  | cons kv rest ih =>
    intro hblank ref
    rw [List.foldl_cons, ih (fun v hv => hblank v (List.mem_cons_of_mem _ hv))]
    by_cases hkf : kv.1 = f
    · have hbl : isBlankVal kv.2 = true := by
        apply hblank kv.2
        rw [show (f, kv.2) = kv from by rw [← hkf]]
        exact List.mem_cons_self _ _
      unfold applyPatchStep
      rw [if_pos hbl]
    · exact applyPatchStep_ne force ref kv f hkf

theorem applyPatch_blank_never_applied (ref : Ref) (patch : Patch)
    (enrich force : Bool) (f : FieldKey)
    (hblank : ∀ v : FieldVal, (f, v) ∈ patch → isBlankVal v = true) :
    applyPatch ref patch enrich force f = ref f := by
  unfold applyPatch
  split
  · exact foldl_applyPatchStep_blank_skipped force f patch hblank ref
  · rfl

/-- C4 witness: a patch offering "" , "NULL" and an absent-style value for
populated and empty fields leaves the reference's title unchanged, with
enrichment on and force on. -/
theorem applyPatch_blank_never_applied_witness :
    applyPatch exRefPopulated
      [(FieldKey.title, FieldVal.str ""), (FieldKey.title, FieldVal.str " NULL "),
        (FieldKey.title, FieldVal.absent)] true true FieldKey.title =
      FieldVal.str "Old Title" :=
  applyPatch_blank_never_applied exRefPopulated _ true true FieldKey.title
    (by
      intro v hv
      simp only [List.mem_cons, List.not_mem_nil, or_false, Prod.mk.injEq] at hv
      rcases hv with ⟨_, rfl⟩ | ⟨_, rfl⟩ | ⟨_, rfl⟩ <;> decide)

/-! ## C9 -/

def defaultRefVal : Ref := fun _ => FieldVal.absent

theorem getD_const_map {α β : Type} (l : List α) (b : β) :
    ∀ i, (l.map (fun _ => b)).getD i b = b := by
  induction l with
  | nil => intro i; rfl
  | cons x xs ih =>
    intro i
    cases i with
    | zero => rfl
    | succ j => exact ih j

theorem validateLoop_cons (prefs : IndexPreferences) (oracle : Nat → Ref → List IndexMatch)
    (i : Nat) (r : Ref) (rest : List Ref) :
    validateLoop prefs oracle i (r :: rest) =
      ((processOne prefs r (oracle i r)).1 :: (validateLoop prefs oracle (i + 1) rest).1,
        (processOne prefs r (oracle i r)).2 :: (validateLoop prefs oracle (i + 1) rest).2) := rfl

theorem validateLoop_spec (prefs : IndexPreferences)
    (oracle : Nat → Ref → List IndexMatch) :
    ∀ (l : List Ref) (start : Nat),
      (validateLoop prefs oracle start l).1.length = l.length ∧
      (validateLoop prefs oracle start l).2.length = l.length ∧
      ∀ i, i < l.length →
        (validateLoop prefs oracle start l).1.getD i defaultRefVal =
          (processOne prefs (l.getD i defaultRefVal)
            (oracle (start + i) (l.getD i defaultRefVal))).1 ∧
        (validateLoop prefs oracle start l).2.getD i allValidReport =
          (processOne prefs (l.getD i defaultRefVal)
            (oracle (start + i) (l.getD i defaultRefVal))).2 := by
  intro l
  induction l with
  | nil =>
    intro start
    refine ⟨rfl, rfl, ?_⟩
    intro i hi
    simp at hi
  | cons r rest ih =>
    intro start
    obtain ⟨hl1, hl2, hidx⟩ := ih (start + 1)
    rw [validateLoop_cons]
    refine ⟨?_, ?_, ?_⟩
    · simp [hl1]
    · simp [hl2]
    · intro i hi
      cases i with
      | zero => exact ⟨rfl, rfl⟩
      | succ j =>
        have hj : j < rest.length := by
          simp only [List.length_cons] at hi
          omega
        have hsi : start + (j + 1) = start + 1 + j := by omega
        simp only [List.getD_cons_succ, hsi]
        exact hidx j hj

/-- C9: validateAndEnrich returns a references array and a validationResults
array of exactly the input length, for every preference configuration
(including enabled = false), and the entry at every index i is produced from
the input reference at index i (the per-reference reconciliation when
enabled, the identity reference with an all-valid empty report when
disabled). -/
theorem validateAndEnrich_alignment (refs : List Ref) (prefs : IndexPreferences)
    (oracle : Nat → Ref → List IndexMatch) :
    ((validateAndEnrich refs prefs oracle).1.length = refs.length ∧
      (validateAndEnrich refs prefs oracle).2.length = refs.length) ∧
    ∀ i, i < refs.length →
      ((validateAndEnrich refs prefs oracle).1.getD i defaultRefVal,
        (validateAndEnrich refs prefs oracle).2.getD i allValidReport) =
        (if prefs.enabled then
          processOne prefs (refs.getD i defaultRefVal)
            (oracle i (refs.getD i defaultRefVal))
        else (refs.getD i defaultRefVal, allValidReport)) := by
  unfold validateAndEnrich
  by_cases he : prefs.enabled
  · rw [if_neg (by simp [he])]
    obtain ⟨h1, h2, hidx⟩ := validateLoop_spec prefs oracle refs 0
    refine ⟨⟨h1, h2⟩, ?_⟩
    intro i hi
    rw [if_pos he]
    have h := hidx i hi
    rw [Nat.zero_add] at h
    exact Prod.ext h.1 h.2
  · rw [if_pos (by simp [he])]
    refine ⟨⟨rfl, by simp⟩, ?_⟩
    intro i hi
    rw [if_neg he]
    rw [getD_const_map refs allValidReport i]

/-- C9 witness: a one-element batch with enabled preferences and an
empty-match oracle is aligned index by index. -/
theorem validateAndEnrich_alignment_witness :
    (validateAndEnrich [exRefPopulated] exPrefs (fun _ _ => [])).1.length = 1 ∧
    (validateAndEnrich [exRefPopulated] exPrefs (fun _ _ => [])).2.length = 1 ∧
    ((validateAndEnrich [exRefPopulated] exPrefs (fun _ _ => [])).1.getD 0 defaultRefVal,
      (validateAndEnrich [exRefPopulated] exPrefs (fun _ _ => [])).2.getD 0 allValidReport) =
      (if exPrefs.enabled then
        processOne exPrefs ([exRefPopulated].getD 0 defaultRefVal)
          ((fun _ _ => ([] : List IndexMatch)) 0 ([exRefPopulated].getD 0 defaultRefVal))
      else ([exRefPopulated].getD 0 defaultRefVal, allValidReport)) :=
  ⟨(validateAndEnrich_alignment [exRefPopulated] exPrefs (fun _ _ => [])).1.1,
    (validateAndEnrich_alignment [exRefPopulated] exPrefs (fun _ _ => [])).1.2,
    (validateAndEnrich_alignment [exRefPopulated] exPrefs (fun _ _ => [])).2 0 (by norm_num)⟩

/-! ## C7 -/

theorem retryGo_backoff_formula (provider : Nat → Nat × JsonVal) :
    ∀ (rem attempt : Nat), 1 ≤ attempt →
      ∀ i, i < (retryGo provider attempt rem).backoffs.length →
        (retryGo provider attempt rem).backoffs.getD i 0 =
          min (2000 * 2 ^ (attempt - 1 + i)) 15000 := by
  intro rem
  induction rem with
  | zero =>
    intro attempt _ i hi
    simp [retryGo] at hi
  | succ n ih =>
    intro attempt hatt i hi
    simp only [retryGo] at hi ⊢
    by_cases ht : (provider attempt).1 ∈ transientStatuses
    · rw [if_pos ht] at hi ⊢
      cases i with
      | zero => simp
      | succ j =>
        simp only [List.getD_cons_succ]
        simp only [List.length_cons] at hi
        have hrec := ih (attempt + 1) (by omega) j (by simpa using hi)
        rw [hrec, show attempt + 1 - 1 + j = attempt - 1 + (j + 1) from by omega]
    · rw [if_neg ht] at hi
      simp at hi

/-- C7: with the default 3 attempts, a provider answering 503 every time is
asked exactly 3 times, the helper terminates returning status 503, and the
two backoff sleeps between the attempts are 2000 ms and 4000 ms; a provider
whose first answer is any non-transient status (404 in particular) is asked
exactly once, with no backoff; and in every run the i-th backoff is
min(2000 · 2^i, 15000), i.e. 2 s doubled per attempt and capped at 15 s. -/
theorem requestJsonWithRetry_bounded :
    (∀ d : JsonVal, requestJsonWithRetry (fun _ => (503, d)) 3 =
      ⟨503, d, 3, [2000, 4000]⟩) ∧
    (∀ (provider : Nat → Nat × JsonVal) (maxAttempts : Nat),
      (provider 1).1 ∉ transientStatuses →
      requestJsonWithRetry provider maxAttempts =
        ⟨(provider 1).1, (provider 1).2, 1, []⟩) ∧
    (∀ (provider : Nat → Nat × JsonVal) (maxAttempts i : Nat),
      i < (requestJsonWithRetry provider maxAttempts).backoffs.length →
      (requestJsonWithRetry provider maxAttempts).backoffs.getD i 0 =
        min (2000 * 2 ^ i) 15000) := by
  refine ⟨?_, ?_, ?_⟩
  · intro d
    rfl
  · intro provider maxAttempts h
    unfold requestJsonWithRetry
    cases hm : maxAttempts - 1 with
    | zero => rfl
    | succ n =>
      unfold retryGo
      rw [if_neg h]
  · intro provider maxAttempts i hi
    have := retryGo_backoff_formula provider (maxAttempts - 1) 1 (by omega) i hi
    simpa using this

/-- C7 witness: the always-503 provider at the default 3 attempts (via the
first conjunct), the 404 provider asked exactly once, and the first backoff of
the 503 run evaluating to 2000 ms. -/
theorem requestJsonWithRetry_bounded_witness :
    requestJsonWithRetry (fun _ => (503, JsonVal.null)) 3 =
      ⟨503, JsonVal.null, 3, [2000, 4000]⟩ ∧
    requestJsonWithRetry (fun _ => (404, JsonVal.null)) 3 =
      ⟨404, JsonVal.null, 1, []⟩ ∧
    (requestJsonWithRetry (fun _ => (503, JsonVal.null)) 3).backoffs.getD 0 0 = 2000 := by
  refine ⟨requestJsonWithRetry_bounded.1 JsonVal.null,
    requestJsonWithRetry_bounded.2.1 (fun _ => (404, JsonVal.null)) 3 (by decide), ?_⟩
  have h := requestJsonWithRetry_bounded.2.2 (fun _ => (503, JsonVal.null)) 3 0
    (by rw [requestJsonWithRetry_bounded.1 JsonVal.null]; decide)
  rw [h]
  decide

/-! ## Wikidata DOI-branch lemmas (shared) -/

theorem matchWikidata_doi_branch (r : Ref) (resp : HttpResp)
    (h : normalizeDOI (refDOI r) ≠ "") :
    matchWikidata r (Except.ok resp) =
      wikidataDoiBranch r (normalizeDOI (refDOI r)) resp := by
  simp only [matchWikidata]
  rw [if_pos h]

theorem wikidataDoiBranch_validated (r : Ref) (doi : String) (resp : HttpResp)
    (hst : resp.status = 200)
    (hbind : jvTruthy (jvIdx (jvGet (jvGet resp.data "results") "bindings") 0) = true)
    (hsc : ∀ (t y fa : Option String), scoreCandidate r ⟨t, some doi, y, fa⟩ = ⟨1, false⟩) :
    (wikidataDoiBranch r doi resp).status = IndexStatus.validated ∧
    (wikidataDoiBranch r doi resp).score = 1 ∧
    (wikidataDoiBranch r doi resp).explanation = "DOI match" := by
  simp only [wikidataDoiBranch]
  rw [if_neg (by rw [hst]; simp), if_neg (by rw [hbind]; simp), hsc, if_pos (by norm_num)]
  exact ⟨rfl, rfl, rfl⟩

theorem wikidataDoiBranch_invalid (r : Ref) (doi : String) (resp : HttpResp)
    (hst : resp.status = 200)
    (hbind : jvTruthy (jvIdx (jvGet (jvGet resp.data "results") "bindings") 0) = true)
    (hsc : ∀ (t y fa : Option String), scoreCandidate r ⟨t, some doi, y, fa⟩ = ⟨0, true⟩) :
    (wikidataDoiBranch r doi resp).status = IndexStatus.invalid ∧
    (wikidataDoiBranch r doi resp).score = 0 := by
  simp only [wikidataDoiBranch]
  rw [if_neg (by rw [hst]; simp), if_neg (by rw [hbind]; simp), hsc, if_neg (by norm_num)]
  exact ⟨rfl, rfl⟩

/-! ## C10 -/

/-- Reference whose stored DOI carries a doubled doi: prefix, on which
normalizeDOI is not idempotent. -/
def exRefDoubleDoi : Ref := fun f =>
  match f with
  | FieldKey.DOI => FieldVal.str "doi:doi:10.1/x"
  | FieldKey.title => FieldVal.str "T"
  | _ => FieldVal.absent

/-- A SPARQL response body with exactly one (empty) result binding. -/
def exBindingData : JsonVal :=
  JsonVal.obj [("results", JsonVal.obj [("bindings", JsonVal.arr [JsonVal.obj []])])]

/-- C10 counterexample: the claim's preconditions hold (the reference DOI
normalizes to the non-empty "doi:10.1/x", the lookup returns HTTP 200 with one
binding), yet matchWikidata returns the invalid branch with score 0 instead of
validated with score 1: scoreCandidate re-normalizes the candidate copy of the
DOI, stripping a second doi: prefix, so the two sides disagree and the DOI
short-circuit yields a mismatch. -/
theorem matchWikidata_doi_validated_cex :
    normalizeDOI (refDOI exRefDoubleDoi) ≠ "" ∧
    jvTruthy (jvIdx (jvGet (jvGet exBindingData "results") "bindings") 0) = true ∧
    (matchWikidata exRefDoubleDoi (Except.ok ⟨200, exBindingData⟩)).status =
      IndexStatus.invalid ∧
    (matchWikidata exRefDoubleDoi (Except.ok ⟨200, exBindingData⟩)).score = 0 := by
  have h1 : matchWikidata exRefDoubleDoi (Except.ok ⟨200, exBindingData⟩) =
      wikidataDoiBranch exRefDoubleDoi (normalizeDOI (refDOI exRefDoubleDoi))
        ⟨200, exBindingData⟩ :=
    matchWikidata_doi_branch _ _ (by decide)
  have h2 := wikidataDoiBranch_invalid exRefDoubleDoi
    (normalizeDOI (refDOI exRefDoubleDoi)) ⟨200, exBindingData⟩ rfl (by decide)
    (fun t y fa => scoreCandidate_doi_ne _ _ (by decide)
      (by
        show normalizeDOI (some (normalizeDOI (refDOI exRefDoubleDoi))) ≠ ""
        decide)
      (by
        show normalizeDOI (refDOI exRefDoubleDoi) ≠
          normalizeDOI (some (normalizeDOI (refDOI exRefDoubleDoi)))
        decide))
  exact ⟨by decide, by decide, h1 ▸ h2.1, h1 ▸ h2.2⟩

/-- C10 (amended): under the additional hypothesis that normalizeDOI is
idempotent at the reference's normalized DOI (true of every ordinarily
prefixed DOI, and forced by the counterexample above), the claim holds: an
HTTP 200 SPARQL response with at least one binding makes matchWikidata return
status validated with score 1 ("DOI match") regardless of the binding's title
or date content, the invalid branch being unreachable. -/
theorem matchWikidata_doi_validated (r : Ref) (data : JsonVal)
    (hdoi : normalizeDOI (refDOI r) ≠ "")
    (hidem : normalizeDOI (some (normalizeDOI (refDOI r))) = normalizeDOI (refDOI r))
    (hbind : jvTruthy (jvIdx (jvGet (jvGet data "results") "bindings") 0) = true) :
    (matchWikidata r (Except.ok ⟨200, data⟩)).status = IndexStatus.validated ∧
    (matchWikidata r (Except.ok ⟨200, data⟩)).score = 1 ∧
    (matchWikidata r (Except.ok ⟨200, data⟩)).explanation = "DOI match" := by
  rw [matchWikidata_doi_branch r ⟨200, data⟩ hdoi]
  refine wikidataDoiBranch_validated r _ ⟨200, data⟩ rfl hbind ?_
  intro t y fa
  apply scoreCandidate_doi_eq
  · exact hdoi
  · show normalizeDOI (some (normalizeDOI (refDOI r))) ≠ ""
    rw [hidem]
    exact hdoi
  · show normalizeDOI (refDOI r) = normalizeDOI (some (normalizeDOI (refDOI r)))
    rw [hidem]

/-- C10 witness: a reference with the singly-prefixed DOI 10.1234/abc (on
which normalization is idempotent) and the one-binding SPARQL body. -/
theorem matchWikidata_doi_validated_witness :
    (matchWikidata exRefDoi (Except.ok ⟨200, exBindingData⟩)).status =
      IndexStatus.validated ∧
    (matchWikidata exRefDoi (Except.ok ⟨200, exBindingData⟩)).score = 1 ∧
    (matchWikidata exRefDoi (Except.ok ⟨200, exBindingData⟩)).explanation = "DOI match" :=
  matchWikidata_doi_validated exRefDoi exBindingData (by decide) (by decide) (by decide)

/-! ## C6 -/

theorem crossrefDoiBranch_source (r : Ref) (resp : HttpResp) :
    (crossrefDoiBranch r resp).source = IndexSource.crossref := by
  simp only [crossrefDoiBranch]
  repeat' split
  all_goals rfl

theorem crossrefSearchBranch_source (r : Ref) (resp : HttpResp) :
    (crossrefSearchBranch r resp).source = IndexSource.crossref := by
  simp only [crossrefSearchBranch]
  repeat' split
  all_goals rfl

theorem matchGbvK10plus_source (r : Ref) (sru : Option String)
    (env : Except String SruHttpResp) (dp : String → Xml)
    (ci : String → Option String) :
    (matchGbvK10plus r sru env dp ci).source = IndexSource.gbv := by
  simp only [matchGbvK10plus]
  repeat' split
  all_goals rfl

/-- C6: on every reference and every outcome of the outbound request —
including arbitrarily shaped (malformed) response bodies, any HTTP status, and
a thrown request-layer exception — the Crossref and GBV adapters return a
structured IndexMatch of their own source and never propagate the exception:
a throw is caught and degraded to a status-error match whose explanation
carries the stringified exception (for GBV, unless the adapter had already
returned its request-free missing-title result before any request was
made). -/
theorem adapters_never_throw :
    (∀ (r : Ref) (env : Except String HttpResp),
      (matchCrossref r env).source = IndexSource.crossref) ∧
    (∀ (r : Ref) (e : String),
      matchCrossref r (Except.error e) =
        { source := .crossref, status := .error, score := 0,
          explanation := "error: " ++ e }) ∧
    (∀ (r : Ref) (sru : Option String) (env : Except String SruHttpResp)
      (dp : String → Xml) (ci : String → Option String),
      (matchGbvK10plus r sru env dp ci).source = IndexSource.gbv) ∧
    (∀ (r : Ref) (sru : Option String) (dp : String → Xml)
      (ci : String → Option String) (e : String),
      matchGbvK10plus r sru (Except.error e) dp ci =
          { source := .gbv, status := .not_found, score := 0,
            explanation := "missing title" } ∨
        matchGbvK10plus r sru (Except.error e) dp ci =
          { source := .gbv, status := .error, score := 0,
            explanation := "error: " ++ e }) := by
  refine ⟨?_, ?_, ?_, ?_⟩
  · intro r env
    cases env with
    | error e => rfl
    | ok resp =>
      show (if _ ≠ "" then crossrefDoiBranch r resp else crossrefSearchBranch r resp).source = _
      split
      · exact crossrefDoiBranch_source r resp
      · exact crossrefSearchBranch_source r resp
  · intro r e
    rfl
  · intro r sru env dp ci
    exact matchGbvK10plus_source r sru env dp ci
  · intro r sru dp ci e
    simp only [matchGbvK10plus]
    split
    · exact Or.inl rfl
    · split <;> split
      · exact Or.inl rfl
      · exact Or.inr rfl
      · exact Or.inl rfl
      · exact Or.inr rfl
